import Mathlib

/-!
Shallow embedding of the congress-sim round-orchestration core.

Sources embedded (TypeScript):
  * `frontend/src/lib/simulation/rng.ts`    — seeded LCG random source (`Random'`)
  * `frontend/src/lib/simulation/agents.ts` — per-agent decision backend (`decideVote`)
  * `frontend/src/lib/simulation/engine.ts` — server-style orchestrator (`runSimulation`)
  * `frontend/src/lib/simulation.ts`        — client orchestrator (`runSimulationClient`)

Modelling conventions:
  * JS `number` values that the code uses as reals (leans, ideologies, RNG draws,
    thresholds) are modelled as exact rationals (`Rat`); JS floating point is treated
    as ideal real arithmetic, which is faithful for every comparison the claims touch
    (all relevant constants are small dyadic/decimal rationals and the LCG state
    arithmetic is exact in doubles).
  * The ambient sources of nondeterminism — the global `Math.random()` stream and the
    LLM / fetch transport — are passed in explicitly as oracle functions bundled in a
    `World` structure, indexed structurally by the (round, position) of the call site.
    Any injective indexing of the distinct call sites is an equivalent presentation of
    the global streams.
  * The transcendental Box–Muller shape `sqrt(-2 ln u) * cos(2 pi v)` is not rational;
    it is modelled by an uninterpreted oracle `gaussShape : Rat → Rat → Rat` applied to
    the two uniform draws.  The *state advancement* of the RNG is modelled exactly.
  * Rejected promises / thrown exceptions surface as `Except.error`; code that the
    source wraps in try/catch is total here, code it does not wrap propagates the error.
-/

attribute [local semireducible] Rat.add Rat.mul Rat.sub Rat.inv

deriving instance DecidableEq for Except

set_option linter.unusedVariables false

/-- JS `Math.max` on two numbers. -/
def jsMax (a b : Rat) : Rat := if b < a then a else b

/-- JS `Math.min` on two numbers. -/
def jsMin (a b : Rat) : Rat := if a < b then a else b

/-- JS `String.prototype.toLowerCase` (ASCII-faithful). -/
def lowerStr (s : String) : String := String.mk (s.data.map Char.toLower)

/-- JS `String.prototype.toUpperCase` (ASCII-faithful). -/
def upperStr (s : String) : String := String.mk (s.data.map Char.toUpper)

/-- JS `String.prototype.includes` (substring test). -/
def strIncludes (hay needle : String) : Bool :=
  (List.range (hay.data.length + 1)).any fun i => needle.data.isPrefixOf (hay.data.drop i)

/-- JS `String.prototype.startsWith`. -/
def startsWithStr (s pre : String) : Bool := pre.data.isPrefixOf s.data

/-- `String(i).padStart(4, "0")` for a numeral string. -/
def padStart4 (s : String) : String :=
  String.mk (List.replicate (4 - s.data.length) '0') ++ s

/-- Member id `M-${String(i + 1).padStart(4, "0")}` assigned to 0-based sample index `i`
(identical in both orchestrators). -/
def memberId (i : Nat) : String := "M-" ++ padStart4 (toString (i + 1))

/-- `District` (api.ts).  `weights : Record<Issue, number>` is modelled as an
association list; the optional descriptor fields are not consulted by the core. -/
structure District where
  district_id : String
  name : String
  lean : Rat
  population : Int
  weights : List (String × Rat)
deriving DecidableEq

/-- `Member` (agents.ts / simulation.ts). -/
structure Member where
  member_id : String
  district : District
  ideology : Rat
  party_hint : String
deriving DecidableEq

/-- `Bill` (api.ts): only `title` and `summary` are consulted by the orchestration
core (`text_content` and the legacy `issue_vector` are opaque pass-throughs). -/
structure Bill where
  title : String
  summary : String
deriving DecidableEq

/-- `Stance` (simulation.ts / api.ts union type). -/
inductive Stance
  | support
  | oppose
  | amend
deriving DecidableEq

/-- `Speech` (api.ts / simulation.ts); `rationale` is the deprecated always-empty map. -/
structure Speech where
  member_id : String
  stance : Stance
  text : String
  rationale : List (String × Rat)
deriving DecidableEq

/-- `Random'` (rng.ts): LCG state.  The constructor takes `seed ?? Date.now()`;
the time fallback is modelled by the caller supplying the clock value as the seed,
and seeds are taken as non-negative machine integers (the LCG keeps the state in
`[0, 2^32)` after the first step). -/
structure Random' where
  seed : Nat
deriving DecidableEq

/-- `Random'.next`: `seed = (seed * 1664525 + 1013904223) % 4294967296; seed / 4294967296`.
All of this is exact in JS doubles, so the `Rat`/`Nat` model is exact. -/
def Random'.next (r : Random') : Rat × Random' :=
  let s := (r.seed * 1664525 + 1013904223) % 4294967296
  (mkRat s 4294967296, ⟨s⟩)

/-- `Random'.uniform(min, max)`. -/
def Random'.uniform (r : Random') (lo hi : Rat) : Rat × Random' :=
  let (x, r1) := r.next
  (lo + (hi - lo) * x, r1)

/-- `Random'.gauss(mu, sigma)` — Box–Muller.  The `while (u === 0)` redraw loop runs at
most once more per draw: a zero draw means the state is `0`, and the next step from
state `0` yields `1013904223 / 2^32 ≠ 0`.  The transcendental value is supplied by the
uninterpreted `shape` oracle applied to the two (post-redraw) uniforms. -/
def Random'.gauss (shape : Rat → Rat → Rat) (r : Random') (mu sigma : Rat) : Rat × Random' :=
  let (u1, r1) := r.next
  let (u, r2) := if u1 = 0 then r1.next else (u1, r1)
  let (v1, r3) := r2.next
  let (v, r4) := if v1 = 0 then r3.next else (v1, r3)
  (shape u v * sigma + mu, r4)

/-- The cumulative-sum scan inside `Random'.choice`: walk items and weights in
parallel, accumulating `sum += weights[i]` and returning the first item with
`r < sum`.  Exhausting either list means the JS loop falls through (a missing
`weights[i]` poisons the remaining comparisons via `NaN`), which the caller
resolves to the last item. -/
def cumLoop {α : Type} (r : Rat) : List α → List Rat → Rat → Option α
  | [], _, _ => none
  | _, [], _ => none
  | i :: is, w :: ws, sum =>
    let sum2 := sum + w
    if r < sum2 then some i else cumLoop r is ws sum2

/-- `Random'.choice(items, weights?)` (rng.ts):
throws `"Empty items"` on an empty list; with no weights returns
`items[Math.floor(next() * items.length)]`; with weights does cumulative-sum
sampling over `r = next() * total`, returning the last item if the scan falls
through. -/
def Random'.choice {α : Type} (rng : Random') (items : List α) (weights : Option (List Rat)) :
    Except String (α × Random') :=
  match items with
  | [] => .error "Empty items"
  | i0 :: _ =>
    match weights with
    | none =>
      let (x, rng1) := rng.next
      .ok (items.getD (x * (items.length : Rat)).floor.toNat i0, rng1)
    | some ws =>
      let total := ws.foldl (fun a b => a + b) 0
      let (x, rng1) := rng.next
      let r := x * total
      match cumLoop r items ws 0 with
      | some it => .ok (it, rng1)
      | none => .ok (items.getLastD i0, rng1)

/-- The observable outcome of one inference call inside `decideVote` (agents.ts):
either the fetch/transport rejected, or the reply text failed to yield a JSON object
with a string `vote` field, or it parsed to `{vote, rationale}` (the raw `vote`
string before `toLowerCase`). -/
inductive LlmOutcome
  | transportError
  | parseFail
  | parsed (vote : String) (rationale : String)
deriving DecidableEq

/-- `VoteDecision` (agents.ts).  The TS annotation declares
`vote: "yes" | "no" | "abstain"`, but the code builds it from `json.vote.toLowerCase()`
without validating, so at runtime the field holds an arbitrary string; the model keeps
the honest runtime type `String`. -/
structure VoteDecision where
  vote : String
  rationale : String
deriving DecidableEq

/-- `decideVote(member, bill, useLlm, llmModel)` (agents.ts).
With `useLlm` false it is the `Math.random()` heuristic (`roll > 0.5 ? yes : no`);
otherwise the local-model branch runs if `llmModel.includes("local") ||
llmModel.startsWith("llama")` (anything else throws "Model not supported" into the
outer catch), and the try/catch structure maps the call outcome as shown.  The
`mathRandom` and `outcome` arguments are the ambient-nondeterminism oracles for
this call. -/
def decideVote (member : Member) (bill : Bill) (useLlm : Bool) (llmModel : String)
    (mathRandom : Rat) (outcome : LlmOutcome) : VoteDecision :=
  if useLlm = false then
    { vote := if mathRandom > 1/2 then "yes" else "no"
      rationale := "LLM disabled; random heuristic vote." }
  else if strIncludes llmModel "local" || startsWithStr llmModel "llama" then
    match outcome with
    | .transportError => { vote := "abstain", rationale := "Error in decision process." }
    | .parseFail => { vote := "abstain", rationale := "Failed to parse reasoning." }
    | .parsed v r => { vote := lowerStr v, rationale := r }
  else
    { vote := "abstain", rationale := "Error in decision process." }

/-- Stable insertion of a member into an ideology-ascending list: an element is
placed after every existing element of less-or-equal ideology.  Folding this over a
list is a stable ascending sort, the specified result of the consistent JS comparator
`(a, b) => a.ideology - b.ideology` under `Array.prototype.sort` (stable per ES2019). -/
def insertByIdeology (m : Member) : List Member → List Member
  | [] => [m]
  | x :: xs => if x.ideology ≤ m.ideology then x :: insertByIdeology m xs else m :: x :: xs

/-- `[...members].sort((a, b) => a.ideology - b.ideology)` — stable ascending sort. -/
def sortByIdeology (ms : List Member) : List Member :=
  ms.foldl (fun acc m => insertByIdeology m acc) []

namespace Engine

/-- `Vote` (api.ts, used by engine.ts): note there is no roll-call field in this
variant. -/
structure Vote where
  yes : Nat
  no : Nat
  abstain : Nat
  passed : Bool
  threshold : Rat
deriving DecidableEq

/-- `Round` (api.ts, used by engine.ts): no amendment field in this variant. -/
structure Round where
  round_index : Nat
  speeches : List Speech
  vote : Vote
deriving DecidableEq

/-- `SimulationResult` (engine.ts): `members` is the member *count*. -/
structure SimulationResult where
  members : Nat
  rounds : List Round
  final_passed : Bool
deriving DecidableEq

/-- Ambient-nondeterminism oracles for one engine run: the Box–Muller shape, the
`Math.random()` draws consumed by `decideVote` for spokesperson decisions (round,
speaker index) and for the full-population vote (round, member index), the LLM call
outcomes at the same call sites, the `Math.random()` draws of the spokesperson
back-fill loop (round, iteration) together with a fuel bound on that loop (the JS
`while` can spin forever on adversarial draws; exhausting the fuel models that
divergence as an error), and the `generateSpeech` result (debate.ts never throws —
it catches fetch errors and falls back to the template). -/
structure World where
  gaussShape : Rat → Rat → Rat
  spokesRoll : Nat → Nat → Rat
  spokesOutcome : Nat → Nat → LlmOutcome
  voteRoll : Nat → Nat → Rat
  voteOutcome : Nat → Nat → LlmOutcome
  backfillRoll : Nat → Nat → Rat
  backfillFuel : Nat
  speechText : Nat → Nat → String

/-- The `for (let i = 0; i < n; i++)` body of `sampleMembers` (engine.ts): a
weighted district draw, a Gaussian ideology jittered from the district lean with
sigma `0.35`, clamped to `[-1, 1]`, and the cosmetic party hint with thresholds
`±0.15`. -/
def sampleOne (w : World) (districts : List District) (probs : List Rat)
    (i : Nat) (rng : Random') : Except String (Member × Random') :=
  match rng.choice districts (some probs) with
  | .error e => .error e
  | .ok dr =>
    let d := dr.1
    let gr := Random'.gauss w.gaussShape dr.2 d.lean (7/20)
    let ideology := jsMax (-1) (jsMin 1 gr.1)
    let party := if ideology > 3/20 then "Blue" else if ideology < -(3/20) then "Red" else "Purple"
    .ok ({ member_id := memberId i, district := d, ideology := ideology, party_hint := party }, gr.2)

/-- The recursion over the remaining draw count `n` (second argument); `i` is the
running member index. -/
def sampleLoop (w : World) (districts : List District) (probs : List Rat) :
    Nat → Nat → Random' → Except String (List Member × Random')
  | _, 0, rng => .ok ([], rng)
  | i, n + 1, rng =>
    match sampleOne w districts probs i rng with
    | .error e => .error e
    | .ok mr =>
      match sampleLoop w districts probs (i + 1) n mr.2 with
      | .error e => .error e
      | .ok msr => .ok (mr.1 :: msr.1, msr.2)

/-- `sampleMembers(districts, n, rng)` (engine.ts): weights are
`max(1, population)`, normalised to probabilities by their total. -/
def sampleMembers (w : World) (districts : List District) (n : Nat) (rng : Random') :
    Except String (List Member × Random') :=
  let pops : List Rat := districts.map fun d => ((max 1 d.population : Int) : Rat)
  let total : Rat := pops.foldl (fun a b => a + b) 0
  let probs := pops.map fun p => p / total
  sampleLoop w districts probs 0 n rng

/-- The `while (chosen.length < k && mid.length > 0)` back-fill loop of
`pickSpokespeople` (engine.ts), drawing random indices into the mid band,
skipping already-seen members, and breaking early when every member has been
seen; JS `mid[randIdx]` with an out-of-range index would be `undefined` and
crash on `.member_id`, modelled as a TypeError. -/
def backfill (w : World) (r popSize k : Nat) (mid : List Member) :
    Nat → Nat → List Member → List String → Except String (List Member)
  | _, 0, chosen, _ =>
    if chosen.length < k && !mid.isEmpty then .error "backfill loop did not terminate"
    else .ok chosen
  | iter, fuel + 1, chosen, seen =>
    if chosen.length < k && !mid.isEmpty then
      let roll := w.backfillRoll r iter
      match mid.get? (roll * (mid.length : Rat)).floor.toNat with
      | none => .error "TypeError"
      | some m =>
        let add := !(seen.contains m.member_id)
        let chosen2 := if add then chosen ++ [m] else chosen
        let seen2 := if add then seen ++ [m.member_id] else seen
        if chosen2.length < k && seen2.length ≥ popSize then .ok chosen2
        else backfill w r popSize k mid (iter + 1) fuel chosen2 seen2
    else .ok chosen

/-- `pickSpokespeople(members, k = 7)` (engine.ts): sort by ideology; if the
population is at most `k` return it whole (sorted); otherwise take the
`[0, ⌊len/4⌋, ⌊len/2⌋, ⌊3len/4⌋, len-1]` cross-section deduplicated by id, back-fill
from the middle band `slice(⌊len/4⌋, ⌊3len/4⌋)` with global `Math.random()` draws,
and return the chosen set re-sorted by ideology. -/
def pickSpokespeople (w : World) (r : Nat) (members : List Member) (k : Nat) :
    Except String (List Member) :=
  let sortedM := sortByIdeology members
  if sortedM.length ≤ k then .ok sortedM
  else
    let len := sortedM.length
    let idxs : List Nat := [0, len / 4, len / 2, 3 * len / 4, len - 1]
    let start : List Member × List String := ([], [])
    let picked := idxs.foldl (fun acc i =>
      match sortedM.get? i with
      | none => acc
      | some m =>
        if acc.2.contains m.member_id then acc
        else (acc.1 ++ [m], acc.2 ++ [m.member_id])) start
    let mid := (sortedM.drop (len / 4)).take (3 * len / 4 - len / 4)
    match backfill w r members.length k mid 0 w.backfillFuel picked.1 picked.2 with
    | .error e => .error e
    | .ok chosen => .ok (sortByIdeology chosen)

/-- The serial per-member loop of `asyncVote` (engine.ts), bucketing each
`decideVote` result: `yes`/`no` strings increment their counters, anything else
increments `abstain`.  `j` is the member index within the round, used to index
the ambient oracles. -/
def asyncVoteCounts (w : World) (r : Nat) (bill : Bill) (useLlm : Bool) (llmModel : String) :
    List Member → Nat → Nat × Nat × Nat
  | [], _ => (0, 0, 0)
  | m :: ms, j =>
    let d := decideVote m bill useLlm llmModel (w.voteRoll r j) (w.voteOutcome r j)
    let rest := asyncVoteCounts w r bill useLlm llmModel ms (j + 1)
    if d.vote = "yes" then (rest.1 + 1, rest.2.1, rest.2.2)
    else if d.vote = "no" then (rest.1, rest.2.1 + 1, rest.2.2)
    else (rest.1, rest.2.1, rest.2.2 + 1)

/-- `asyncVote(members, bill, useLlm, llmModel, threshold = 0.5)` (engine.ts):
`passed = (yes / Math.max(1, yes + no)) >= threshold`. -/
def asyncVote (w : World) (r : Nat) (members : List Member) (bill : Bill)
    (useLlm : Bool) (llmModel : String) (threshold : Rat) : Vote :=
  let c := asyncVoteCounts w r bill useLlm llmModel members 0
  { yes := c.1, no := c.2.1, abstain := c.2.2
    passed := decide ((c.1 : Rat) / jsMax 1 ((c.1 : Rat) + (c.2.1 : Rat)) ≥ threshold)
    threshold := threshold }

/-- One spokesperson entry of the engine round: `decideVote` gives a vote string,
mapped to a stance (`yes → support`, `no → oppose`, else `amend`), and
`generateSpeech` gives the text (oracle; debate.ts never throws). -/
def engineSpeech (w : World) (r i : Nat) (s : Member) (bill : Bill)
    (useLlm : Bool) (llmModel : String) : Speech :=
  let decision := decideVote s bill useLlm llmModel (w.spokesRoll r i) (w.spokesOutcome r i)
  let stance : Stance :=
    if decision.vote = "yes" then .support
    else if decision.vote = "no" then .oppose
    else .amend
  { member_id := s.member_id, stance := stance, text := w.speechText r i, rationale := [] }

/-- The `for (let r = 0; r < rounds; r++)` loop of `runSimulation` (engine.ts).
After pushing the round the source executes `if (voteResult.passed) break;` and then
`if (!voteResult.passed) break;` — one of the two always fires, so the loop body
runs at most once; both breaks are kept explicitly. -/
def engineLoop (w : World) (members : List Member) (bill : Bill)
    (useLlm : Bool) (llmModel : String) : Nat → Nat → Except String (List Round)
  | _, 0 => .ok []
  | r, fuel + 1 =>
    match pickSpokespeople w r members 7 with
    | .error e => .error e
    | .ok spokes =>
      let speeches := spokes.enum.map fun p => engineSpeech w r p.1 p.2 bill useLlm llmModel
      let voteResult := asyncVote w r members bill useLlm llmModel (1/2)
      let round : Round := { round_index := r, speeches := speeches, vote := voteResult }
      if voteResult.passed then .ok [round]
      else .ok [round]

/-- `runSimulation(districts, numMembers, rounds, bill, useLlm, llmModel, seed)`
(engine.ts): throws on an empty district list, samples the fixed population with the
seeded RNG, runs the round loop, and reports `final_passed` as the last executed
round's `passed` (or `false` when no round ran). -/
def runSimulation (w : World) (districts : List District) (numMembers rounds : Nat)
    (bill : Bill) (useLlm : Bool) (llmModel : String) (seed : Nat) :
    Except String SimulationResult :=
  if districts.isEmpty then .error "No active districts are loaded."
  else
    match sampleMembers w districts numMembers ⟨seed⟩ with
    | .error e => .error e
    | .ok (members, _) =>
      match engineLoop w members bill useLlm llmModel 0 rounds with
      | .error e => .error e
      | .ok allRounds =>
        .ok { members := numMembers
              rounds := allRounds
              final_passed := ((allRounds.getLast?).map fun rd => rd.vote.passed).getD false }

end Engine

namespace Client

/-- `Vote` (simulation.ts): counters are JS numbers that the reconciliation step
decrements as well as increments, so they are modelled as `Int`; `rollCall` is a JS
object with string keys in insertion order, modelled as a key-unique association
list. -/
structure Vote where
  yes : Int
  no : Int
  abstain : Int
  passed : Bool
  threshold : Rat
  rollCall : List (String × String)
deriving DecidableEq

/-- `Round` (simulation.ts): carries the optional amendment text. -/
structure Round where
  round_index : Nat
  speeches : List Speech
  vote : Vote
  amendment : Option String
deriving DecidableEq

/-- `SimResult` (simulation.ts).  `final_statements` is never assigned by
`runSimulationClient` and is omitted. -/
structure SimResult where
  members : List Member
  rounds : List Round
  final_passed : Bool
  notes : List String
deriving DecidableEq

/-- The observable result of one `engine.chat.completions.create(...)` call:
the promise rejected (`thrown`), or it resolved with `message.content`
(possibly null). -/
inductive Reply
  | thrown
  | ok (content : Option String)

/-- The observable result of one batched roll-call request inside `batchVote`:
the promise rejected, or it resolved and the strict regex
`/(M-\d+)\s*[:|-]?\s*(YES|NO)/gi` extracted the given (id, YES?) matches, in
match order, from the reply text.  The string semantics of the regex scrape is
abstracted into the oracle; only the extracted matches are observable downstream. -/
inductive BatchReply
  | thrown
  | matches (ms : List (String × Bool))

/-- Ambient-nondeterminism oracles for one client run: the `Math.random()` draw of
`sampleMembers` per member index, the spokesperson "thought" and speech-generation
replies per (round, speaker position), the batched vote reply per (round, chunk),
the `Math.random()` fallback draws per (round, chunk, member position in chunk),
and the amendment-generation reply per round. -/
structure World where
  sampleNoise : Nat → Rat
  thought : Nat → Nat → Reply
  speechReply : Nat → Nat → Reply
  batch : Nat → Nat → BatchReply
  fallbackRoll : Nat → Nat → Nat → Rat
  amendReply : Nat → Reply

/-- `SimOptions` (simulation.ts), restricted to the fields `runSimulationClient`
consults: `sample` is `districtSummary.sample`; `llmConfig` presence is folded into
`useLlm` (the run uses the engine exactly when `useLlm && loadedEngine`, and the
engine is loaded whenever the LLM was requested with a config). -/
structure SimOptions where
  bill : Bill
  sample : List District
  numMembers : Nat
  rounds : Nat
  useLlm : Bool
  seed : Option Int
deriving DecidableEq

/-- `sampleMembers(districts, n, rngSeed)` (simulation.ts).  Note: the `rngSeed`
parameter is accepted and *ignored* by the source; the ideology noise
`(Math.random() - 0.5) * 0.4` comes from the global unseeded stream (the `noise`
oracle).  The caller always passes a list of exactly `n` districts, so the `getD`
default is unreachable. -/
def sampleMembers (noise : Nat → Rat) (districts : List District) (n : Nat)
    (rngSeed : Option Int) : List Member :=
  (List.range n).map fun i =>
    let d := districts.getD (i % districts.length)
      { district_id := "", name := "", lean := 0, population := 0, weights := [] }
    let noiseV := (noise i - 1/2) * (2/5)
    let ideology := jsMax (-1) (jsMin 1 (d.lean + noiseV))
    let party := if ideology > 1/10 then "Blue" else if ideology < -(1/10) then "Red" else "Purple"
    { member_id := memberId i, district := d, ideology := ideology, party_hint := party }

/-- JS object write `votes[k] = v` on a key-unique association list: replace the
existing entry in place (keys keep their original position) or append. -/
def setKey : List (String × String) → String → String → List (String × String)
  | [], k, v => [(k, v)]
  | (k', v') :: rest, k, v =>
    if k' = k then (k, v) :: rest else (k', v') :: setKey rest k v

/-- JS object read `votes[k]` (`none` models `undefined`). -/
def lookup : List (String × String) → String → Option String
  | [], _ => none
  | (k', v') :: rest, k => if k' = k then some v' else lookup rest k

/-- The regex-match loop of `batchVote`: for each extracted `(id, YES?)` match, in
order, set `results[id.toUpperCase()]` to `"yes"`/`"no"` (later matches for the same
id overwrite earlier ones). -/
def applyMatches (votes : List (String × String)) : List (String × Bool) → List (String × String)
  | [] => votes
  | (id, isYes) :: rest =>
    applyMatches (setKey votes (upperStr id) (if isYes then "yes" else "no")) rest

/-- The per-chunk fallback loop of `batchVote`: every chunk member without an entry
gets a probabilistic vote, `Math.random() < (ideology + 1) / 2 ? "yes" : "no"`;
`j` is the member's position within the chunk. -/
def fallbackFill (w : World) (r c : Nat) :
    List Member → Nat → List (String × String) → List (String × String)
  | [], _, votes => votes
  | m :: ms, j, votes =>
    let votes2 :=
      match lookup votes m.member_id with
      | some _ => votes
      | none =>
        let prob := (m.ideology + 1) / 2
        setKey votes m.member_id (if w.fallbackRoll r c j < prob then "yes" else "no")
    fallbackFill w r c ms (j + 1) votes2

/-- `BATCH_SIZE = 10` chunking of the member list (fuel-structured; the fuel is the
list length, which suffices since each step drops 10 ≥ 1 elements). -/
def chunksGo {α : Type} (k : Nat) : Nat → List α → List (List α)
  | _, [] => []
  | 0, _ => []
  | fuel + 1, l => l.take k :: chunksGo k fuel (l.drop k)

/-- Split a list into chunks of `k`. -/
def chunksOf {α : Type} (k : Nat) (l : List α) : List (List α) := chunksGo k l.length l

/-- The chunk loop of `batchVote` (simulation.ts): per chunk `c`, one LLM request;
a rejected request marks every chunk member `"abstain"`, a resolved one applies the
regex matches and then the probabilistic fallback for chunk members still missing.
The `results` object is shared across chunks. -/
def batchChunks (w : World) (r : Nat) :
    List (List Member) → Nat → List (String × String) → List (String × String)
  | [], _, votes => votes
  | chunk :: rest, c, votes =>
    let votes2 :=
      match w.batch r c with
      | .thrown => chunk.foldl (fun vs m => setKey vs m.member_id "abstain") votes
      | .matches ms => fallbackFill w r c chunk 0 (applyMatches votes ms)
    batchChunks w r rest (c + 1) votes2

/-- `batchVote(engine, bill, members, ...)` (simulation.ts): the prompt text is not
observable downstream, so the embedding is the chunk loop over the oracle replies. -/
def batchVote (w : World) (r : Nat) (members : List Member) : List (String × String) :=
  batchChunks w r (chunksOf 10 members) 0 []

/-- The `Object.entries(votes)` counting pass of `runSimulationClient`: every entry
(member or not) is bucketed by its value. -/
def countVotes (votes : List (String × String)) : Int × Int × Int :=
  votes.foldl
    (fun acc p =>
      if p.2 = "yes" then (acc.1 + 1, acc.2.1, acc.2.2)
      else if p.2 = "no" then (acc.1, acc.2.1 + 1, acc.2.2)
      else (acc.1, acc.2.1, acc.2.2 + 1))
    (0, 0, 0)

/-- The fixed stance→vote mapping of the reconciliation step
(`support → yes`, `oppose → no`, `amend → abstain`). -/
def stanceVote : Stance → String
  | .support => "yes"
  | .oppose => "no"
  | .amend => "abstain"

/-- One step of the FORCE CONSISTENCY loop of `runSimulationClient`: if the
speaker's current roll-call entry differs from the vote implied by the speech's
stance, move one count from the old bucket to the forced bucket (an absent entry
decrements `abstain`, mirroring the source's `else abs--`) and overwrite the entry. -/
def forceOne (st : List (String × String) × Int × Int × Int) (s : Speech) :
    List (String × String) × Int × Int × Int :=
  let votes := st.1
  let currentVote := lookup votes s.member_id
  let forced := stanceVote s.stance
  if currentVote = some forced then st
  else
    let dec : Int × Int × Int :=
      match currentVote with
      | some "yes" => (st.2.1 - 1, st.2.2.1, st.2.2.2)
      | some "no" => (st.2.1, st.2.2.1 - 1, st.2.2.2)
      | _ => (st.2.1, st.2.2.1, st.2.2.2 - 1)
    let inc : Int × Int × Int :=
      if forced = "yes" then (dec.1 + 1, dec.2.1, dec.2.2)
      else if forced = "no" then (dec.1, dec.2.1 + 1, dec.2.2)
      else (dec.1, dec.2.1, dec.2.2 + 1)
    (setKey votes s.member_id forced, inc.1, inc.2.1, inc.2.2)

/-- `passed: yes > (yes + no) * 0.5` (simulation.ts) — note the strict inequality,
unlike the engine variant's `>=` against the threshold. -/
def clientPassed (yes no : Int) : Bool :=
  decide ((yes : Rat) > ((yes : Rat) + (no : Rat)) * (1/2))

/-- The per-speaker speech phase of a client round: with the LLM enabled, the
"thought" call maps its lower-cased content through `includes("yes")` /
`includes("no")` to a stance and the speech call supplies the text (`"I yield my
time."` when the content is null or empty); both calls are un-caught, so a rejected
promise aborts the run.  Without the LLM the stance is `ideology > 0 ?
support : oppose` and the text is the fixed placeholder. -/
def mkSpeech (w : World) (useLlm : Bool) (r i : Nat) (s : Member) : Except String Speech :=
  if useLlm then
    match w.thought r i with
    | .thrown => .error "LLM call failed"
    | .ok content =>
      let t := lowerStr (content.getD "")
      let stance : Stance :=
        if strIncludes t "yes" then .support
        else if strIncludes t "no" then .oppose
        else .amend
      match w.speechReply r i with
      | .thrown => .error "LLM call failed"
      | .ok c2 =>
        let text :=
          match c2 with
          | some txt => if txt = "" then "I yield my time." else txt
          | none => "I yield my time."
        .ok { member_id := s.member_id, stance := stance, text := text, rationale := [] }
  else
    .ok { member_id := s.member_id
          stance := if s.ideology > 0 then .support else .oppose
          text := "I have no brain (LLM disabled)."
          rationale := [] }

/-- The tally expression of a client round (inlined in the source): with the LLM,
`batchVote` → `Object.entries` counting → FORCE CONSISTENCY → strict-majority
`passed`; without it, the fixed dummy tally
`{yes: ⌊n/2⌋, no: ⌊n/2⌋, abstain: 0, passed: false, rollCall: {}}`. -/
def roundTally (w : World) (opts : SimOptions) (members : List Member) (r : Nat)
    (speeches : List Speech) : Vote :=
  if opts.useLlm then
    let votes := batchVote w r members
    let c := countVotes votes
    let forcedSt := speeches.foldl forceOne (votes, c.1, c.2.1, c.2.2)
    { yes := forcedSt.2.1, no := forcedSt.2.2.1, abstain := forcedSt.2.2.2
      passed := clientPassed forcedSt.2.1 forcedSt.2.2.1
      threshold := 1/2
      rollCall := forcedSt.1 }
  else
    { yes := ((opts.numMembers / 2 : Nat) : Int), no := ((opts.numMembers / 2 : Nat) : Int)
      abstain := 0, passed := false, threshold := 1/2, rollCall := [] }

/-- One round of `runSimulationClient`: pick the five speakers
`sorted[0], sorted[⌊n*.25⌋], sorted[⌊n*.5⌋], sorted[⌊n*.75⌋], sorted[n-1]` from the
ideology-sorted population (an empty population would crash on
`undefined.member_id` — a TypeError), generate their speeches, then tally: with the
LLM, `batchVote` → entry counting → FORCE CONSISTENCY → strict-majority `passed`;
without it, the fixed dummy tally.  The mutated bill summary only feeds the prompts,
which are oracle-abstracted, so it is accepted and unused here. -/
def runRound (w : World) (opts : SimOptions) (members : List Member) (r : Nat)
    (summary : String) : Except String Round :=
  match sortByIdeology members with
  | [] => .error "TypeError"
  | m0 :: _ =>
    let sorted := sortByIdeology members
    let n := sorted.length
    let speakers := [sorted.getD 0 m0, sorted.getD (n / 4) m0, sorted.getD (n / 2) m0,
                     sorted.getD (3 * n / 4) m0, sorted.getD (n - 1) m0]
    match (speakers.enum.mapM fun p => mkSpeech w opts.useLlm r p.1 p.2 :
        Except String (List Speech)) with
    | .error e => .error e
    | .ok speeches =>
      .ok { round_index := r, speeches := speeches
            vote := roundTally w opts members r speeches, amendment := none }

/-- The fixed generic amendment used when the amendment reply has no content
(`reply.choices[0].message.content || "..."`). -/
def genericAmendment : String := "Add a budgetary oversight committee to monitor spending."

/-- `reply.choices[0].message.content || genericAmendment`: null or empty content
falls back to the fixed generic amendment. -/
def amendTextOf (content : Option String) : String :=
  match content with
  | some t => if t = "" then genericAmendment else t
  | none => genericAmendment

/-- The tag appended to the bill summary when an amendment is adopted after
(0-based) round `roundNo - 1`: `"\n\nAMENDMENT (Round " + roundNo + "): " + text`. -/
def amendMarker (roundNo : Nat) (text : String) : String :=
  "\n\nAMENDMENT (Round " ++ toString roundNo ++ "): " ++ text

/-- The `for (let r = 0; r < rounds; r++)` loop of `runSimulationClient`
(`fuel` is the number of rounds still allowed, so `r`-th call has
`fuel = rounds - r`): run the round; on a passing vote stop with the "Passed in
round r+1." note; otherwise, if rounds remain and the LLM is enabled, generate an
amendment (an un-caught rejected call aborts the run; empty/null content falls back
to the fixed generic string), record it on the round, append the tagged text to the
bill summary for the next round, and continue; without the LLM just continue. -/
def clientLoop (w : World) (opts : SimOptions) (members : List Member) :
    Nat → Nat → String → Except String (List Round × List String)
  | _, 0, _ => .ok ([], [])
  | r, fuel + 1, summary =>
    match runRound w opts members r summary with
    | .error e => .error e
    | .ok round =>
      if round.vote.passed then
        .ok ([round], ["Passed in round " ++ toString (r + 1) ++ "."])
      else if 0 < fuel then
        if opts.useLlm then
          match w.amendReply r with
          | .thrown => .error "amendment generation failed"
          | .ok content =>
            let amendText := amendTextOf content
            match clientLoop w opts members (r + 1) fuel (summary ++ amendMarker (r + 1) amendText) with
            | .error e => .error e
            | .ok (rest, notes) =>
              .ok ({ round with amendment := some amendText } :: rest,
                   ("Amendment Proposed: " ++ amendText) :: notes)
        else
          match clientLoop w opts members (r + 1) fuel summary with
          | .error e => .error e
          | .ok (rest, notes) => .ok (round :: rest, notes)
      else .ok ([round], [])

/-- `runSimulationClient(opts)` (simulation.ts): throws `"No districts"` when the
sample is empty; cycles the sample to `numMembers` districts; samples the members
(with the unseeded global noise — the `seed` option is never consulted); runs the
round loop starting from the initial bill summary; `final_passed` is
`allRounds[allRounds.length - 1]?.vote.passed || false`. -/
def runSimulationClient (w : World) (opts : SimOptions) : Except String SimResult :=
  match opts.sample with
  | [] => .error "No districts"
  | s0 :: _ =>
    let filled := (List.range opts.numMembers).map fun i =>
      opts.sample.getD (i % opts.sample.length) s0
    let members := sampleMembers w.sampleNoise filled opts.numMembers opts.seed
    match clientLoop w opts members 0 opts.rounds opts.bill.summary with
    | .error e => .error e
    | .ok (allRounds, notes) =>
      .ok { members := members
            rounds := allRounds
            final_passed := ((allRounds.getLast?).map fun rd => rd.vote.passed).getD false
            notes := notes }

end Client

/-- The last recorded stance of member `m` among a round's speeches (a member can
speak more than once when the population is smaller than the five speaker slots). -/
def lastStanceOf (speeches : List Speech) (m : String) : Option Stance :=
  ((speeches.filter fun s => s.member_id = m).getLast?).map fun s => s.stance

/-! ### Concrete instances used by the counterexamples and witnesses -/

/-- The first mock district of `state.ts` (`loadMockDistricts`). -/
def mockDistrict : District :=
  { district_id := "mock-1", name := "Mock District 1 (Left)", lean := 3/5,
    population := 750000,
    weights := [("economy", 1/5), ("climate", 3/10), ("healthcare", 3/10),
                ("immigration", 1/10), ("education", 1/10)] }

/-- A concrete bill (title/summary as in the repository's test script). -/
def mockBill : Bill :=
  { title := "Save the Whales Act", summary := "Bans whale hunting." }

/-- A concrete member. -/
def mockMember : Member :=
  { member_id := "M001", district := mockDistrict, ideology := 2/5, party_hint := "Blue" }

/-- A client world whose `Math.random()` stream is constantly `0.5` and whose LLM
replies are all empty. -/
def noLlmWorld : Client.World :=
  { sampleNoise := fun _ => 1/2
    thought := fun _ _ => .ok none
    speechReply := fun _ _ => .ok none
    batch := fun _ _ => .matches []
    fallbackRoll := fun _ _ _ => 0
    amendReply := fun _ => .ok none }

/-- Client options: seed 42, one mock district, one member, one round, LLM off. -/
def c1Opts : Client.SimOptions :=
  { bill := mockBill, sample := [mockDistrict], numMembers := 1, rounds := 1,
    useLlm := false, seed := some 42 }

/-- Same world as `noLlmWorld` except the global `Math.random()` stream draws `0.9`:
the configuration and seed are identical, only the ambient unseeded stream differs. -/
def c1WorldB : Client.World := { noLlmWorld with sampleNoise := fun _ => 9/10 }

/-- Thought replies for the three-round scenario: in rounds 0 and 1 the first two
speaker slots say yes and the rest say no; in round 2 everyone says yes. -/
def c2Thought : Nat → Nat → Client.Reply := fun r i =>
  if r = 2 then .ok (some "yes") else if i ≤ 1 then .ok (some "yes") else .ok (some "no")

/-- Batched roll-call replies for the three-round scenario: rounds 0 and 1 split the
ten members 5 yes / 5 no; round 2 is unanimous yes. -/
def c2Batch : Nat → Nat → Client.BatchReply := fun r _ =>
  if r = 2 then .matches ((List.range 10).map fun i => (memberId i, true))
  else .matches ((List.range 10).map fun i => (memberId i, decide (i < 5)))

/-- The three-round scenario world. -/
def c2World : Client.World :=
  { noLlmWorld with
    thought := c2Thought
    batch := c2Batch
    speechReply := fun _ _ => Client.Reply.ok (some "Hear me out.")
    amendReply := fun _ => Client.Reply.ok (some "Add oversight.") }

/-- Three-round scenario options: ten members, three rounds, LLM on. -/
def c2Opts : Client.SimOptions := { c1Opts with numMembers := 10, rounds := 3, useLlm := true }

/-- The member population the scenario run samples (ten members of the mock
district, all at ideology `0.6` since the noise stream is constantly `0.5`). -/
def c2Members : List Member :=
  Client.sampleMembers (fun _ => 1/2) ((List.range 10).map fun _ => mockDistrict) 10 (some 42)

/-- Empty client tally (extraction default; never observed). -/
def emptyClientVote : Client.Vote :=
  { yes := 0, no := 0, abstain := 0, passed := false, threshold := 0, rollCall := [] }

/-- Default client round (extraction default; never observed). -/
def emptyClientRound : Client.Round :=
  { round_index := 0, speeches := [], vote := emptyClientVote, amendment := none }

/-- Default client result (extraction default; never observed). -/
def emptyClientResult : Client.SimResult :=
  { members := [], rounds := [], final_passed := false, notes := [] }

/-- The scenario round loop, run from round 0 with three rounds of fuel. -/
def c2LoopOut : List Client.Round × List String :=
  (Client.clientLoop c2World c2Opts c2Members 0 3 "Bans whale hunting.").toOption.getD ([], [])

/-- First round of the scenario loop. -/
def c2r0 : Client.Round := c2LoopOut.1.headD emptyClientRound

/-- Remaining rounds of the scenario loop. -/
def c2Rest : List Client.Round := c2LoopOut.1.tail

/-- Notes of the scenario loop. -/
def c2Notes : List String := c2LoopOut.2

/-- Options for the C3 counterexample: five members, one round, LLM off. -/
def c3Opts : Client.SimOptions := { c1Opts with numMembers := 5, rounds := 1 }

/-- The C3 counterexample run result. -/
def c3Res : Client.SimResult :=
  (Client.runSimulationClient noLlmWorld c3Opts).toOption.getD emptyClientResult

/-- Its only round. -/
def c3Round0 : Client.Round := c3Res.rounds.headD emptyClientRound

/-- World for the C3 witness: every thought says yes, the batch reply marks the
single member yes. -/
def c3wWorld : Client.World :=
  { c2World with
    thought := fun _ _ => Client.Reply.ok (some "yes")
    batch := fun _ _ => Client.BatchReply.matches [("M-0001", true)] }

/-- Options for the C3 witness: one member, one round, LLM on. -/
def c3wOpts : Client.SimOptions := { c1Opts with useLlm := true }

/-- The C3 witness run result. -/
def c3wRes : Client.SimResult :=
  (Client.runSimulationClient c3wWorld c3wOpts).toOption.getD emptyClientResult

/-- Its only round. -/
def c3wRound0 : Client.Round := c3wRes.rounds.headD emptyClientRound

/-- Options for the C4 counterexample: the tie round of the scenario world, one round. -/
def c4Opts : Client.SimOptions := { c2Opts with rounds := 1 }

/-- The C4 counterexample run result (a 5-yes / 5-no tie under the LLM path). -/
def c4Res : Client.SimResult :=
  (Client.runSimulationClient c2World c4Opts).toOption.getD emptyClientResult

/-- Its only round. -/
def c4Round0 : Client.Round := c4Res.rounds.headD emptyClientRound

/-- Options for the C5 counterexample: three members (odd), one round, LLM off. -/
def c5Opts : Client.SimOptions := { c1Opts with numMembers := 3, rounds := 1 }

/-- The C5 counterexample run result. -/
def c5Res : Client.SimResult :=
  (Client.runSimulationClient noLlmWorld c5Opts).toOption.getD emptyClientResult

/-- Its only round. -/
def c5Round0 : Client.Round := c5Res.rounds.headD emptyClientRound

/-- An engine world with trivial oracles: zero Gaussian shape, zero `Math.random()`
draws, failing LLM transport, template speeches. -/
def engWorld : Engine.World :=
  { gaussShape := fun _ _ => 0
    spokesRoll := fun _ _ => 0
    spokesOutcome := fun _ _ => LlmOutcome.transportError
    voteRoll := fun _ _ => 0
    voteOutcome := fun _ _ => LlmOutcome.transportError
    backfillRoll := fun _ _ => 0
    backfillFuel := 100
    speechText := fun _ _ => "Template speech." }

/-- Engine world whose full-population vote outcomes are one parsed YES then parsed
NO for every later member — a 1-yes/1-no tie on a two-member population. -/
def tieWorld : Engine.World :=
  { engWorld with
    voteOutcome := fun _ j =>
      if j = 0 then LlmOutcome.parsed "YES" "approves" else LlmOutcome.parsed "NO" "objects" }

/-- A two-member population. -/
def twoMembers : List Member := [mockMember, { mockMember with member_id := "M002" }]

/-- Default engine result (extraction default; never observed). -/
def emptyEngResult : Engine.SimulationResult :=
  { members := 0, rounds := [], final_passed := false }

/-- Concrete engine run: one member, three configured rounds, heuristic backend,
seed 42. -/
def c9EngRes : Engine.SimulationResult :=
  (Engine.runSimulation engWorld [mockDistrict] 1 3 mockBill false "llama3" 42).toOption.getD
    emptyEngResult

/-- Concrete client run for the C9 witness. -/
def c9CliRes : Client.SimResult :=
  (Client.runSimulationClient noLlmWorld c1Opts).toOption.getD emptyClientResult

/-- World for the C8 counterexample: the scenario world with a rejected
amendment-generation call. -/
def c8World : Client.World := { c2World with amendReply := fun _ => Client.Reply.thrown }

/-- Options for the C8 counterexample: two rounds (round 0 fails its vote). -/
def c8Opts : Client.SimOptions := { c2Opts with rounds := 2 }

/-- World for the C8 witness: the scenario world with an amendment call that
resolves with null content. -/
def c8wWorld : Client.World := { c2World with amendReply := fun _ => Client.Reply.ok none }

/-- The C8 witness loop output. -/
def c8wLoopOut : List Client.Round × List String :=
  (Client.clientLoop c8wWorld c8Opts c2Members 0 2 "Bans whale hunting.").toOption.getD ([], [])

/-- First round of the C8 witness loop. -/
def c8wr0 : Client.Round := c8wLoopOut.1.headD emptyClientRound

/-- Remaining rounds of the C8 witness loop. -/
def c8wRest : List Client.Round := c8wLoopOut.1.tail

/-- Notes of the C8 witness loop. -/
def c8wNotes : List String := c8wLoopOut.2

/-- The C10 witness run (three members, two rounds, LLM off). -/
def c10Opts : Client.SimOptions := { c1Opts with numMembers := 3, rounds := 2 }

/-- Its result. -/
def c10Res : Client.SimResult :=
  (Client.runSimulationClient noLlmWorld c10Opts).toOption.getD emptyClientResult

/-- Options for the C2 counterexample: LLM off, two rounds, one member. -/
def c2cOpts : Client.SimOptions := { c1Opts with rounds := 2 }

/-- Empty engine tally (extraction default; never observed). -/
def emptyEngVote : Engine.Vote :=
  { yes := 0, no := 0, abstain := 0, passed := false, threshold := 0 }

/-- Default engine round (extraction default; never observed). -/
def emptyEngRound : Engine.Round :=
  { round_index := 0, speeches := [], vote := emptyEngVote }

/-- The single round of the concrete engine run. -/
def c9EngRound0 : Engine.Round := c9EngRes.rounds.headD emptyEngRound

/-- First round of the C10 witness run. -/
def c10Round0 : Client.Round := c10Res.rounds.headD emptyClientRound

/-! ### Association-list and reconciliation lemmas (client) -/

theorem Client.lookup_setKey_self (vs : List (String × String)) (k v : String) :
    Client.lookup (Client.setKey vs k v) k = some v := by
  induction vs with
  | nil => simp [Client.setKey, Client.lookup]
  | cons p rest ih =>
    obtain ⟨a, b⟩ := p
    by_cases h : a = k
    · simp [Client.setKey, Client.lookup, h]
    · simp [Client.setKey, Client.lookup, h, ih]

theorem Client.lookup_setKey_other (vs : List (String × String)) (k v k' : String)
    (h : k' ≠ k) : Client.lookup (Client.setKey vs k v) k' = Client.lookup vs k' := by
  induction vs with
  | nil => simp [Client.setKey, Client.lookup, Ne.symm h]
  | cons p rest ih =>
    obtain ⟨a, b⟩ := p
    by_cases hak : a = k
    · subst hak
      simp [Client.setKey, Client.lookup, Ne.symm h]
    · simp [Client.setKey, Client.lookup, hak, ih]

theorem Client.lookup_forceOne_self (st : List (String × String) × Int × Int × Int)
    (s : Speech) :
    Client.lookup (Client.forceOne st s).1 s.member_id = some (Client.stanceVote s.stance) := by
  unfold Client.forceOne
  by_cases h : Client.lookup st.1 s.member_id = some (Client.stanceVote s.stance)
  · simp [h]
  · simp only [h, if_false]
    exact Client.lookup_setKey_self _ _ _

theorem Client.lookup_forceOne_other (st : List (String × String) × Int × Int × Int)
    (s : Speech) (m : String) (h : m ≠ s.member_id) :
    Client.lookup (Client.forceOne st s).1 m = Client.lookup st.1 m := by
  unfold Client.forceOne
  by_cases hc : Client.lookup st.1 s.member_id = some (Client.stanceVote s.stance)
  · simp only [hc, if_true]
  · simp only [hc, if_false]
    exact Client.lookup_setKey_other _ _ _ _ h

theorem Client.forceFold_not_mem (speeches : List Speech)
    (st : List (String × String) × Int × Int × Int) (m : String)
    (h : ∀ s ∈ speeches, s.member_id ≠ m) :
    Client.lookup (speeches.foldl Client.forceOne st).1 m = Client.lookup st.1 m := by
  induction speeches generalizing st with
  | nil => rfl
  | cons s rest ih =>
    rw [List.foldl_cons, ih _ (fun s' hs' => h s' (List.mem_cons_of_mem _ hs'))]
    exact Client.lookup_forceOne_other st s m (Ne.symm (h s (List.mem_cons_self _ _)))

theorem Client.forceFold_lookup_last (speeches : List Speech) (m : String) (stn : Stance)
    (h : lastStanceOf speeches m = some stn)
    (st : List (String × String) × Int × Int × Int) :
    Client.lookup (speeches.foldl Client.forceOne st).1 m = some (Client.stanceVote stn) := by
  induction speeches generalizing st with
  | nil => simp [lastStanceOf] at h
  | cons s rest ih =>
    rw [List.foldl_cons]
    by_cases hrest : ∃ s' ∈ rest, s'.member_id = m
    · have hfil : rest.filter (fun s' => s'.member_id = m) ≠ [] := by
        obtain ⟨s', hs', he⟩ := hrest
        intro hnil
        have hmem : s' ∈ rest.filter (fun s'' => s''.member_id = m) :=
          List.mem_filter.mpr ⟨hs', by simp [he]⟩
        rw [hnil] at hmem
        exact absurd hmem (List.not_mem_nil _)
      have hlast : lastStanceOf rest m = some stn := by
        unfold lastStanceOf at h ⊢
        rw [List.filter_cons] at h
        by_cases hsm : s.member_id = m
        · rw [if_pos (by simp [hsm])] at h
          cases hfl : rest.filter (fun s' => s'.member_id = m) with
          | nil => exact absurd hfl hfil
          | cons q qs =>
            rw [hfl] at h
            rwa [List.getLast?_cons_cons] at h
        · rw [if_neg (by simp [hsm])] at h
          exact h
      exact ih hlast _
    · push_neg at hrest
      have hfr : rest.filter (fun s' => s'.member_id = m) = [] := by
        rw [List.filter_eq_nil_iff]
        intro s' hs'
        simp [hrest s' hs']
      unfold lastStanceOf at h
      rw [List.filter_cons, hfr] at h
      by_cases hsm : s.member_id = m
      · rw [if_pos (by simp [hsm])] at h
        simp only [List.getLast?_singleton, Option.map_some'] at h
        have hst : s.stance = stn := Option.some.inj h
        rw [Client.forceFold_not_mem rest _ m hrest, ← hsm, Client.lookup_forceOne_self, hst]
      · rw [if_neg (by simp [hsm])] at h
        simp at h

/-! ### Round-tally and loop inversion lemmas (client) -/

theorem Client.clientPassed_eq_self (a : Int) : Client.clientPassed a a = false := by
  unfold Client.clientPassed
  simp only [decide_eq_false_iff_not, not_lt]
  have h : ((a : Rat) + a) * (1/2) = (a : Rat) := by ring
  rw [h]

theorem Client.roundTally_rollCall (w : Client.World) (opts : Client.SimOptions)
    (members : List Member) (r : Nat) (speeches : List Speech) (m : String) (stn : Stance)
    (huse : opts.useLlm = true) (h : lastStanceOf speeches m = some stn) :
    Client.lookup (Client.roundTally w opts members r speeches).rollCall m =
      some (Client.stanceVote stn) := by
  unfold Client.roundTally
  simp only [huse, if_true]
  exact Client.forceFold_lookup_last speeches m stn h _

theorem Client.roundTally_passed (w : Client.World) (opts : Client.SimOptions)
    (members : List Member) (r : Nat) (speeches : List Speech) :
    (Client.roundTally w opts members r speeches).passed =
      Client.clientPassed (Client.roundTally w opts members r speeches).yes
        (Client.roundTally w opts members r speeches).no := by
  unfold Client.roundTally
  by_cases h : opts.useLlm <;> simp [h, Client.clientPassed_eq_self]

theorem Client.roundTally_noLlm (w : Client.World) (opts : Client.SimOptions)
    (members : List Member) (r : Nat) (speeches : List Speech)
    (huse : opts.useLlm = false) :
    Client.roundTally w opts members r speeches =
      { yes := ((opts.numMembers / 2 : Nat) : Int), no := ((opts.numMembers / 2 : Nat) : Int)
        abstain := 0, passed := false, threshold := 1/2, rollCall := [] } := by
  unfold Client.roundTally
  simp [huse]

theorem Client.runRound_ok {w : Client.World} {opts : Client.SimOptions}
    {members : List Member} {r : Nat} {sm : String} {round : Client.Round}
    (h : Client.runRound w opts members r sm = .ok round) :
    round.round_index = r ∧ round.amendment = none ∧
      round.vote = Client.roundTally w opts members r round.speeches := by
  unfold Client.runRound at h
  split at h
  · cases h
  · dsimp only [] at h
    split at h
    · cases h
    · injection h with h2
      subst h2
      exact ⟨rfl, rfl, rfl⟩

theorem Client.clientLoop_succ_inv {w : Client.World} {opts : Client.SimOptions}
    {members : List Member} {r fuel : Nat} {sm : String} {rl : List Client.Round}
    {ns : List String}
    (h : Client.clientLoop w opts members r (fuel + 1) sm = .ok (rl, ns)) :
    ∃ round, Client.runRound w opts members r sm = .ok round ∧
      ((round.vote.passed = true ∧ rl = [round] ∧
          ns = ["Passed in round " ++ toString (r + 1) ++ "."]) ∨
       (round.vote.passed = false ∧ fuel = 0 ∧ rl = [round] ∧ ns = []) ∨
       (round.vote.passed = false ∧ 0 < fuel ∧ opts.useLlm = false ∧
         ∃ rest notes2,
           Client.clientLoop w opts members (r + 1) fuel sm = .ok (rest, notes2) ∧
           rl = round :: rest ∧ ns = notes2) ∨
       (round.vote.passed = false ∧ 0 < fuel ∧ opts.useLlm = true ∧
         ∃ content rest notes2,
           w.amendReply r = .ok content ∧
           Client.clientLoop w opts members (r + 1) fuel
             (sm ++ Client.amendMarker (r + 1) (Client.amendTextOf content)) =
             .ok (rest, notes2) ∧
           rl = { round with amendment := some (Client.amendTextOf content) } :: rest ∧
           ns = ("Amendment Proposed: " ++ Client.amendTextOf content) :: notes2)) := by
  unfold Client.clientLoop at h
  split at h
  · cases h
  next round hrr =>
    refine ⟨round, hrr, ?_⟩
    split at h
    next hp =>
      left
      simp only [Except.ok.injEq, Prod.mk.injEq] at h
      exact ⟨by simpa using hp, h.1.symm, h.2.symm⟩
    next hp =>
      have hpf : round.vote.passed = false := by simpa using hp
      split at h
      next hf =>
        split at h
        next huse =>
          split at h
          · cases h
          next content har =>
            dsimp only [] at h
            split at h
            · cases h
            next rest notes2 hrec =>
              right; right; right
              simp only [Except.ok.injEq, Prod.mk.injEq] at h
              exact ⟨hpf, hf, by simpa using huse,
                content, rest, notes2, har, hrec, h.1.symm, h.2.symm⟩
        next huse =>
          split at h
          · cases h
          next rest notes2 hrec =>
            right; right; left
            simp only [Except.ok.injEq, Prod.mk.injEq] at h
            exact ⟨hpf, hf, by simpa using huse,
              rest, notes2, hrec, h.1.symm, h.2.symm⟩
      next hf =>
        right; left
        simp only [Except.ok.injEq, Prod.mk.injEq] at h
        exact ⟨hpf, by omega, h.1.symm, h.2.symm⟩

theorem Client.clientLoop_zero_inv {w : Client.World} {opts : Client.SimOptions}
    {members : List Member} {r : Nat} {sm : String} {rl : List Client.Round}
    {ns : List String}
    (h : Client.clientLoop w opts members r 0 sm = .ok (rl, ns)) : rl = [] := by
  unfold Client.clientLoop at h
  simp only [Except.ok.injEq, Prod.mk.injEq] at h
  exact h.1.symm

theorem Client.clientLoop_ne_nil {w : Client.World} {opts : Client.SimOptions}
    {members : List Member} {r fuel : Nat} {sm : String} {rl : List Client.Round}
    {ns : List String} (hf : 0 < fuel)
    (h : Client.clientLoop w opts members r fuel sm = .ok (rl, ns)) : rl ≠ [] := by
  cases fuel with
  | zero => exact absurd hf (by simp)
  | succ f =>
    obtain ⟨round, _, hc⟩ := Client.clientLoop_succ_inv h
    rcases hc with ⟨_, hrl, _⟩ | ⟨_, _, hrl, _⟩ | ⟨_, _, _, rest, notes2, _, hrl, _⟩ |
      ⟨_, _, _, c, rest, notes2, _, _, hrl, _⟩ <;> subst hrl <;> simp

theorem Client.clientLoop_shape {w : Client.World} {opts : Client.SimOptions}
    {members : List Member} :
    ∀ (fuel r : Nat) (sm : String) (rl : List Client.Round) (ns : List String),
      Client.clientLoop w opts members r fuel sm = .ok (rl, ns) →
      rl.length ≤ fuel ∧ rl.map (fun rd => rd.round_index) = List.range' r rl.length := by
  intro fuel
  induction fuel with
  | zero =>
    intro r sm rl ns h
    have hrl := Client.clientLoop_zero_inv h
    subst hrl
    simp
  | succ f ih =>
    intro r sm rl ns h
    obtain ⟨round, hrr, hc⟩ := Client.clientLoop_succ_inv h
    have hidx := (Client.runRound_ok hrr).1
    rcases hc with ⟨_, hrl, _⟩ | ⟨_, _, hrl, _⟩ | ⟨_, _, _, rest, notes2, hrec, hrl, _⟩ |
      ⟨_, _, _, c, rest, notes2, _, hrec, hrl, _⟩
    · subst hrl
      simp [hidx, List.range'_succ]
    · subst hrl
      simp [hidx, List.range'_succ]
    · subst hrl
      obtain ⟨hlen, hmap⟩ := ih (r + 1) sm rest notes2 hrec
      refine ⟨by simpa using Nat.succ_le_succ hlen, ?_⟩
      simp [hmap, hidx, List.range'_succ]
    · subst hrl
      obtain ⟨hlen, hmap⟩ := ih (r + 1) _ rest notes2 hrec
      refine ⟨by simpa using Nat.succ_le_succ hlen, ?_⟩
      simp [hmap, hidx, List.range'_succ]

theorem Client.clientLoop_rounds {w : Client.World} {opts : Client.SimOptions}
    {members : List Member} :
    ∀ (fuel r : Nat) (sm : String) (rl : List Client.Round) (ns : List String),
      Client.clientLoop w opts members r fuel sm = .ok (rl, ns) →
      ∀ round ∈ rl, ∃ r' sm' round₀,
        Client.runRound w opts members r' sm' = .ok round₀ ∧
        (round = round₀ ∨ ∃ t, round = { round₀ with amendment := some t }) := by
  intro fuel
  induction fuel with
  | zero =>
    intro r sm rl ns h
    have hrl := Client.clientLoop_zero_inv h
    subst hrl
    simp
  | succ f ih =>
    intro r sm rl ns h round hmem
    obtain ⟨round₀, hrr, hc⟩ := Client.clientLoop_succ_inv h
    rcases hc with ⟨_, hrl, _⟩ | ⟨_, _, hrl, _⟩ | ⟨_, _, _, rest, notes2, hrec, hrl, _⟩ |
      ⟨_, _, _, c, rest, notes2, _, hrec, hrl, _⟩
    · subst hrl
      rw [List.mem_singleton] at hmem
      exact ⟨r, sm, round₀, hrr, Or.inl hmem⟩
    · subst hrl
      rw [List.mem_singleton] at hmem
      exact ⟨r, sm, round₀, hrr, Or.inl hmem⟩
    · subst hrl
      rcases List.mem_cons.mp hmem with hmem | hmem
      · exact ⟨r, sm, round₀, hrr, Or.inl hmem⟩
      · exact ih (r + 1) sm rest notes2 hrec round hmem
    · subst hrl
      rcases List.mem_cons.mp hmem with hmem | hmem
      · exact ⟨r, sm, round₀, hrr, Or.inr ⟨_, hmem⟩⟩
      · exact ih (r + 1) _ rest notes2 hrec round hmem

theorem Client.clientLoop_noLlm {w : Client.World} {opts : Client.SimOptions}
    {members : List Member} (huse : opts.useLlm = false) :
    ∀ (fuel r : Nat) (sm : String) (rl : List Client.Round) (ns : List String),
      Client.clientLoop w opts members r fuel sm = .ok (rl, ns) →
      rl.length = fuel ∧ ∀ round ∈ rl, round.vote =
        { yes := ((opts.numMembers / 2 : Nat) : Int), no := ((opts.numMembers / 2 : Nat) : Int)
          abstain := 0, passed := false, threshold := 1/2, rollCall := [] } := by
  intro fuel
  induction fuel with
  | zero =>
    intro r sm rl ns h
    have hrl := Client.clientLoop_zero_inv h
    subst hrl
    simp
  | succ f ih =>
    intro r sm rl ns h
    obtain ⟨round, hrr, hc⟩ := Client.clientLoop_succ_inv h
    have hvote : round.vote =
        { yes := ((opts.numMembers / 2 : Nat) : Int), no := ((opts.numMembers / 2 : Nat) : Int)
          abstain := 0, passed := false, threshold := 1/2, rollCall := [] } := by
      rw [(Client.runRound_ok hrr).2.2]
      exact Client.roundTally_noLlm w opts members r round.speeches huse
    have hpf : round.vote.passed = false := by rw [hvote]
    rcases hc with ⟨hp, hrl, _⟩ | ⟨_, hf0, hrl, _⟩ | ⟨_, _, _, rest, notes2, hrec, hrl, _⟩ |
      ⟨_, _, hut, _⟩
    · rw [hp] at hpf
      cases hpf
    · subst hrl
      subst hf0
      constructor
      · simp
      · intro rd hrd
        rw [List.mem_singleton] at hrd
        subst hrd
        exact hvote
    · subst hrl
      obtain ⟨hlen, hall⟩ := ih (r + 1) sm rest notes2 hrec
      constructor
      · simp [hlen]
      · intro rd hrd
        rcases List.mem_cons.mp hrd with hrd | hrd
        · subst hrd
          exact hvote
        · exact hall rd hrd
    · rw [huse] at hut
      cases hut

theorem Client.runSimulationClient_ok {w : Client.World} {opts : Client.SimOptions}
    {res : Client.SimResult}
    (h : Client.runSimulationClient w opts = .ok res) :
    ∃ ns, Client.clientLoop w opts res.members 0 opts.rounds opts.bill.summary =
        .ok (res.rounds, ns) ∧
      res.final_passed = ((res.rounds.getLast?).map fun rd => rd.vote.passed).getD false := by
  unfold Client.runSimulationClient at h
  split at h
  · cases h
  · dsimp only [] at h
    split at h
    · cases h
    next allRounds notes heq =>
      injection h with h2
      subst h2
      exact ⟨notes, heq, rfl⟩

/-! ### Engine lemmas -/

theorem Engine.sampleLoop_length {w : Engine.World} {districts : List District}
    {probs : List Rat} :
    ∀ (n i : Nat) (rng : Random') (ms : List Member) (rng' : Random'),
      Engine.sampleLoop w districts probs i n rng = .ok (ms, rng') → ms.length = n := by
  intro n
  induction n with
  | zero =>
    intro i rng ms rng' h
    unfold Engine.sampleLoop at h
    simp only [Except.ok.injEq, Prod.mk.injEq] at h
    rw [← h.1]
    rfl
  | succ k ih =>
    intro i rng ms rng' h
    unfold Engine.sampleLoop at h
    split at h
    · cases h
    next mr hone =>
      split at h
      · cases h
      next msr heq =>
        injection h with h2
        have hlen := ih (i + 1) mr.2 msr.1 msr.2 heq
        simp only [Prod.mk.injEq] at h2
        rw [← h2.1]
        simp [hlen]

theorem Engine.sampleMembers_length {w : Engine.World} {districts : List District}
    {n : Nat} {rng : Random'} {ms : List Member} {rng' : Random'}
    (h : Engine.sampleMembers w districts n rng = .ok (ms, rng')) : ms.length = n := by
  unfold Engine.sampleMembers at h
  exact Engine.sampleLoop_length n 0 rng ms rng' h

theorem Engine.asyncVoteCounts_sum (w : Engine.World) (r : Nat) (bill : Bill)
    (useLlm : Bool) (llmModel : String) :
    ∀ (ms : List Member) (j : Nat),
      (Engine.asyncVoteCounts w r bill useLlm llmModel ms j).1 +
      (Engine.asyncVoteCounts w r bill useLlm llmModel ms j).2.1 +
      (Engine.asyncVoteCounts w r bill useLlm llmModel ms j).2.2 = ms.length := by
  intro ms
  induction ms with
  | nil => intro j; rfl
  | cons m rest ih =>
    intro j
    simp only [Engine.asyncVoteCounts]
    have := ih (j + 1)
    split
    · simp only [List.length_cons]
      omega
    · split
      · simp only [List.length_cons]
        omega
      · simp only [List.length_cons]
        omega

theorem Engine.asyncVote_sum (w : Engine.World) (r : Nat) (members : List Member)
    (bill : Bill) (useLlm : Bool) (llmModel : String) (threshold : Rat) :
    (Engine.asyncVote w r members bill useLlm llmModel threshold).yes +
    (Engine.asyncVote w r members bill useLlm llmModel threshold).no +
    (Engine.asyncVote w r members bill useLlm llmModel threshold).abstain = members.length := by
  simp only [Engine.asyncVote]
  exact Engine.asyncVoteCounts_sum w r bill useLlm llmModel members 0

theorem Engine.asyncVote_passed_eq (w : Engine.World) (r : Nat) (members : List Member)
    (bill : Bill) (useLlm : Bool) (llmModel : String) (threshold : Rat) :
    (Engine.asyncVote w r members bill useLlm llmModel threshold).passed =
      decide
        ((((Engine.asyncVote w r members bill useLlm llmModel threshold).yes : Nat) : Rat) /
            jsMax 1
              ((((Engine.asyncVote w r members bill useLlm llmModel threshold).yes : Nat) : Rat) +
                (((Engine.asyncVote w r members bill useLlm llmModel threshold).no : Nat) : Rat)) ≥
          (Engine.asyncVote w r members bill useLlm llmModel threshold).threshold) := rfl

theorem Engine.engineLoop_zero (w : Engine.World) (members : List Member) (bill : Bill)
    (useLlm : Bool) (llmModel : String) (r : Nat) :
    Engine.engineLoop w members bill useLlm llmModel r 0 = .ok [] := rfl

theorem Engine.engineLoop_succ (w : Engine.World) (members : List Member) (bill : Bill)
    (useLlm : Bool) (llmModel : String) (r fuel : Nat) :
    Engine.engineLoop w members bill useLlm llmModel r (fuel + 1) =
      (match Engine.pickSpokespeople w r members 7 with
       | .error e => .error e
       | .ok spokes =>
         let speeches := spokes.enum.map fun p =>
           Engine.engineSpeech w r p.1 p.2 bill useLlm llmModel
         let voteResult := Engine.asyncVote w r members bill useLlm llmModel (1/2)
         let round : Engine.Round :=
           { round_index := r, speeches := speeches, vote := voteResult }
         if voteResult.passed then .ok [round] else .ok [round]) := rfl

theorem Engine.engineLoop_succ_inv {w : Engine.World} {members : List Member} {bill : Bill}
    {useLlm : Bool} {llmModel : String} {r fuel : Nat} {rl : List Engine.Round}
    (h : Engine.engineLoop w members bill useLlm llmModel r (fuel + 1) = .ok rl) :
    ∃ spokes, Engine.pickSpokespeople w r members 7 = .ok spokes ∧
      rl = [{ round_index := r
              speeches := spokes.enum.map fun p =>
                Engine.engineSpeech w r p.1 p.2 bill useLlm llmModel
              vote := Engine.asyncVote w r members bill useLlm llmModel (1/2) }] := by
  rw [Engine.engineLoop_succ] at h
  split at h
  · cases h
  next spokes heq =>
    dsimp only [] at h
    split at h <;> (injection h with h2; exact ⟨spokes, heq, h2.symm⟩)

theorem Engine.runSimulation_ok {w : Engine.World} {districts : List District}
    {n rounds : Nat} {bill : Bill} {useLlm : Bool} {llmModel : String} {seed : Nat}
    {res : Engine.SimulationResult}
    (h : Engine.runSimulation w districts n rounds bill useLlm llmModel seed = .ok res) :
    ∃ members rngEnd,
      Engine.sampleMembers w districts n ⟨seed⟩ = .ok (members, rngEnd) ∧
      members.length = n ∧
      Engine.engineLoop w members bill useLlm llmModel 0 rounds = .ok res.rounds ∧
      res.members = n ∧
      res.final_passed = ((res.rounds.getLast?).map fun rd => rd.vote.passed).getD false := by
  unfold Engine.runSimulation at h
  split at h
  · cases h
  · split at h
    · cases h
    next members rngEnd hsm =>
      split at h
      · cases h
      next allRounds hloop =>
        injection h with h2
        subst h2
        exact ⟨members, rngEnd, hsm, Engine.sampleMembers_length hsm, hloop, rfl, rfl⟩

theorem mem_of_getLast?_eq {α : Type} {l : List α} {a : α} (h : l.getLast? = some a) :
    a ∈ l := by
  obtain ⟨hne, he⟩ := List.mem_getLast?_eq_getLast (show a ∈ l.getLast? by simpa [Option.mem_def] using h)
  rw [he]
  exact List.getLast_mem hne

/-! ### Claims -/

/-- Claim C1 (code bug): the claim says two runs with the same seed, district list,
configuration and deterministic (non-LLM) decision backend yield identical
`SimulationResult`s.  The code violates this: `sampleMembers` (simulation.ts) ignores
its `rngSeed` parameter and derives the ideology noise from the global unseeded
`Math.random()`, so two runs that differ only in the ambient `Math.random()` stream —
seed 42, the same single district, one member, one round, LLM off in both — produce
different results (member ideology `0.6` versus `0.76`). -/
theorem c1_theorem :
    Client.runSimulationClient noLlmWorld c1Opts ≠
      Client.runSimulationClient c1WorldB c1Opts ∧
    (Client.runSimulationClient noLlmWorld c1Opts).toOption.map
      (fun res => res.members.map fun m => m.ideology) = some [3/5] ∧
    (Client.runSimulationClient c1WorldB c1Opts).toOption.map
      (fun res => res.members.map fun m => m.ideology) = some [19/25] := by
  refine ⟨by decide, by decide, by decide⟩

/-- Claim C6 (counterexample): with items `[0, 1]` and weights `[1, -1]`, which sum
to zero, `Random'.choice` from state 0 returns the *first* item rather than the last:
the running cumulative sum reaches `1` after the first weight, and
`r = next() * 0 = 0 < 1` selects item 0.  This falsifies the claim's unconditional
"zero-sum weights return the last item". -/
theorem c6_counterexample :
    Random'.choice (⟨0⟩ : Random') [(0 : Nat), 1] (some [1, -1]) = .ok (0, ⟨1013904223⟩) ∧
    ((1 : Rat) + (-1) = 0) ∧ [(0 : Nat), 1].getLast? = some 1 := by
  refine ⟨by decide, by norm_num, rfl⟩

theorem nonneg_foldl_sum_zero :
    ∀ (ws : List Rat) (acc : Rat), 0 ≤ acc → (∀ q ∈ ws, 0 ≤ q) →
      ws.foldl (fun a b => a + b) acc = 0 → acc = 0 ∧ ∀ q ∈ ws, q = 0 := by
  intro ws
  induction ws with
  | nil =>
    intro acc hacc _ hsum
    simp only [List.foldl_nil] at hsum
    exact ⟨hsum, by simp⟩
  | cons q rest ih =>
    intro acc hacc hnn hsum
    simp only [List.foldl_cons] at hsum
    have hq : 0 ≤ q := hnn q (List.mem_cons_self _ _)
    obtain ⟨hsum0, hall⟩ := ih (acc + q) (by linarith) (fun p hp => hnn p (List.mem_cons_of_mem _ hp)) hsum
    refine ⟨by linarith, ?_⟩
    intro p hp
    rcases List.mem_cons.mp hp with rfl | hp
    · linarith
    · exact hall p hp

theorem cumLoop_zero_weights {α : Type} (r : Rat) (hr : 0 ≤ r) :
    ∀ (items : List α) (ws : List Rat) (acc : Rat),
      (∀ q ∈ ws, q = 0) → acc ≤ 0 → cumLoop r items ws acc = none := by
  intro items
  induction items with
  | nil => intro ws acc _ _; cases ws <;> rfl
  | cons i is ih =>
    intro ws acc hz hacc
    cases ws with
    | nil => rfl
    | cons q qs =>
      unfold cumLoop
      dsimp only []
      have hq : q = 0 := hz q (List.mem_cons_self _ _)
      rw [if_neg (by rw [hq]; simp; linarith)]
      exact ih qs (acc + q) (fun p hp => hz p (List.mem_cons_of_mem _ hp)) (by rw [hq]; simpa)

/-- Claim C6 (amended): `Random'.choice` fails with the empty-input error on an empty
item list; with weights omitted it returns the item at the uniform index
`⌊next() * items.length⌋`; and with *non-negative* weights summing to zero it
degrades to returning the last item.  (The claim's unrestricted zero-sum clause is
false for mixed-sign weights; non-negativity is the correction.) -/
theorem c6_theorem :
    (∀ (rng : Random') (weights : Option (List Rat)),
      Random'.choice rng ([] : List Nat) weights = .error "Empty items") ∧
    (∀ (rng : Random') (x : Member) (items : List Member),
      Random'.choice rng (x :: items) none =
        .ok ((x :: items).getD ((rng.next.1 * ((x :: items).length : Rat)).floor.toNat) x,
             rng.next.2)) ∧
    (∀ (rng : Random') (x : Nat) (items : List Nat) (ws : List Rat),
      (∀ q ∈ ws, 0 ≤ q) → ws.foldl (fun a b => a + b) 0 = 0 →
      Random'.choice rng (x :: items) (some ws) =
        .ok ((x :: items).getLastD x, rng.next.2)) := by
  refine ⟨fun rng weights => rfl, fun rng x items => rfl, ?_⟩
  intro rng x items ws hnn hsum
  have hz : ∀ q ∈ ws, q = 0 := (nonneg_foldl_sum_zero ws 0 le_rfl hnn hsum).2
  unfold Random'.choice
  dsimp only []
  rw [hsum, mul_zero]
  rw [cumLoop_zero_weights 0 le_rfl (x :: items) ws 0 hz le_rfl]

/-- Claim C6 (witness): the empty-items failure and the all-zero-weights fallback at
concrete inputs. -/
theorem c6_witness :
    Random'.choice (⟨7⟩ : Random') ([] : List Nat) none = .error "Empty items" ∧
    Random'.choice (⟨0⟩ : Random') [(5 : Nat), 6] (some [0, 0]) = .ok (6, ⟨1013904223⟩) := by
  constructor
  · exact c6_theorem.1 ⟨7⟩ none
  · have h := c6_theorem.2.2 ⟨0⟩ 5 [6] [0, 0] (by decide) (by decide)
    rw [h]
    decide

/-- Claim C7 (code bug): `decideVote` (agents.ts) never propagates an exception and
maps transport failures and unparseable output to `abstain` — but its success path
returns `json.vote.toLowerCase()` without validating it, so a structurally valid JSON
reply `{"vote": "Maybe", "rationale": "unsure"}` makes the call return the vote string
`"maybe"`, which is not a valid Vote, contradicting the claim (and the function's own
declared return type `"yes" | "no" | "abstain"`). -/
theorem c7_theorem :
    (decideVote mockMember mockBill true "llama3" 0 (.parsed "Maybe" "unsure")).vote =
      "maybe" ∧
    "maybe" ∉ (["yes", "no", "abstain"] : List String) ∧
    (decideVote mockMember mockBill true "llama3" 0 .transportError).vote = "abstain" ∧
    (decideVote mockMember mockBill true "llama3" 0 .transportError).rationale =
      "Error in decision process." ∧
    (decideVote mockMember mockBill true "llama3" 0 .parseFail).vote = "abstain" ∧
    (decideVote mockMember mockBill true "llama3" 0 .parseFail).rationale =
      "Failed to parse reasoning." := by
  refine ⟨by decide, by decide, by decide, by decide, by decide, by decide⟩

/-- Claim C5 (counterexample): in the client orchestrator with the LLM disabled and
three members, round 0's tally sums to `1 + 1 + 0 = 2 ≠ 3` (the dummy tally is
`⌊3/2⌋ / ⌊3/2⌋ / 0`), and the member `M-0001` has no roll-call entry at all (the
roll call is empty), falsifying both conjuncts of the claim for that run. -/
theorem c5_counterexample :
    c5Res.members.length = 3 ∧
    c5Round0.vote.yes + c5Round0.vote.no + c5Round0.vote.abstain = 2 ∧
    c5Round0.speeches ≠ [] ∧
    Client.lookup c5Round0.vote.rollCall "M-0001" = none := by
  refine ⟨by decide, by decide, by decide, by decide⟩

/-- Claim C5 (amended): in the engine orchestrator (`runSimulation`, engine.ts) the
tally of every executed round satisfies `yes + no + abstain = numMembers` (that
variant's tally carries no roll-call map at all); the invariant does not extend to
the client orchestrator, whose LLM-free dummy tally breaks it for odd populations
(see the counterexample). -/
theorem c5_theorem :
    ∀ (w : Engine.World) (districts : List District) (n rounds : Nat) (bill : Bill)
      (useLlm : Bool) (llmModel : String) (seed : Nat) (res : Engine.SimulationResult),
      Engine.runSimulation w districts n rounds bill useLlm llmModel seed = .ok res →
      ∀ round ∈ res.rounds,
        round.vote.yes + round.vote.no + round.vote.abstain = n := by
  intro w districts n rounds bill useLlm llmModel seed res h round hmem
  obtain ⟨members, rngEnd, hsm, hlen, hloop, _, _⟩ := Engine.runSimulation_ok h
  cases rounds with
  | zero =>
    rw [Engine.engineLoop_zero] at hloop
    injection hloop with h2
    rw [← h2] at hmem
    cases hmem
  | succ f =>
    obtain ⟨spokes, _, hrl⟩ := Engine.engineLoop_succ_inv hloop
    rw [hrl] at hmem
    rw [List.mem_singleton] at hmem
    subst hmem
    have hsum := Engine.asyncVote_sum w 0 members bill useLlm llmModel (1/2)
    simpa [hlen] using hsum

/-- Claim C5 (witness): the engine run with one member — its only round's tally sums
to the population size 1. -/
theorem c5_witness :
    c9EngRound0.vote.yes + c9EngRound0.vote.no + c9EngRound0.vote.abstain = 1 :=
  c5_theorem engWorld [mockDistrict] 1 3 mockBill false "llama3" 42 c9EngRes (by decide)
    c9EngRound0 (by decide)

/-- Claim C4 (counterexample): a client-orchestrator round with a 5-yes / 5-no tie
(abstain 0, threshold 0.5) has `passed = false`, while the claim's formula
`yes / max(1, yes + no) >= threshold` evaluates to `5/10 = 0.5 >= 0.5`, i.e. passed.
The client computes `yes > (yes + no) * 0.5` — a strict majority — so an equal
nonzero split does *not* pass there, falsifying the claim. -/
theorem c4_counterexample :
    c4Round0.vote.yes = 5 ∧ c4Round0.vote.no = 5 ∧ c4Round0.vote.abstain = 0 ∧
    c4Round0.vote.threshold = 1/2 ∧ c4Round0.vote.passed = false ∧
    ((5 : Rat) / jsMax 1 ((5 : Rat) + (5 : Rat)) ≥ 1/2) := by
  refine ⟨by decide, by decide, by decide, by decide, by decide, by decide⟩

/-- Claim C4 (amended): the engine orchestrator's tally satisfies the claim exactly —
`passed = (yes / max(1, yes+no)) >= threshold` with default threshold 0.5, abstain
playing no role, and an equal nonzero yes/no split at threshold 0.5 *is* passed;
the client orchestrator instead uses the strict rule `yes > (yes+no) * 0.5` in every
round, so a tie there is not passed. -/
theorem c4_theorem :
    (∀ (w : Engine.World) (r : Nat) (members : List Member) (bill : Bill)
       (useLlm : Bool) (llmModel : String) (threshold : Rat),
       (Engine.asyncVote w r members bill useLlm llmModel threshold).passed =
         decide
           ((((Engine.asyncVote w r members bill useLlm llmModel threshold).yes : Nat) : Rat) /
               jsMax 1
                 ((((Engine.asyncVote w r members bill useLlm llmModel threshold).yes : Nat) : Rat) +
                   (((Engine.asyncVote w r members bill useLlm llmModel threshold).no : Nat) : Rat)) ≥
             threshold)) ∧
    ((Engine.asyncVote tieWorld 0 twoMembers mockBill true "llama3" (1/2)).yes = 1 ∧
     (Engine.asyncVote tieWorld 0 twoMembers mockBill true "llama3" (1/2)).no = 1 ∧
     (Engine.asyncVote tieWorld 0 twoMembers mockBill true "llama3" (1/2)).passed = true) ∧
    (∀ (w : Client.World) (opts : Client.SimOptions) (res : Client.SimResult),
       Client.runSimulationClient w opts = .ok res →
       ∀ round ∈ res.rounds,
         round.vote.passed = Client.clientPassed round.vote.yes round.vote.no) := by
  refine ⟨fun w r members bill useLlm llmModel threshold => rfl,
    ⟨by decide, by decide, by decide⟩, ?_⟩
  intro w opts res h round hmem
  obtain ⟨ns, hloop, _⟩ := Client.runSimulationClient_ok h
  obtain ⟨r', sm', round₀, hrr, hcase⟩ :=
    Client.clientLoop_rounds opts.rounds 0 opts.bill.summary res.rounds ns hloop round hmem
  have hv := (Client.runRound_ok hrr).2.2
  have hp := Client.roundTally_passed w opts res.members r' round₀.speeches
  rcases hcase with rfl | ⟨t, rfl⟩
  · rw [hv]
    exact hp
  · show round₀.vote.passed = Client.clientPassed round₀.vote.yes round₀.vote.no
    rw [hv]
    exact hp

/-- Claim C4 (witness): the tie round of the client counterexample run satisfies the
amended strict-majority law. -/
theorem c4_witness :
    c4Round0.vote.passed = Client.clientPassed c4Round0.vote.yes c4Round0.vote.no :=
  c4_theorem.2.2 c2World c4Opts c4Res (by decide) c4Round0 (by decide)

/-- Claim C3 (counterexample): in the client orchestrator with the LLM disabled, the
round produces five speeches (each with a definite stance) but records an *empty*
roll call, so a spokesperson such as `M-0001` has no roll-call entry at all — the
entry cannot equal the vote implied by the spoken stance, falsifying the claim for
that run.  (The engine variant records no roll call whatsoever.) -/
theorem c3_counterexample :
    c3Round0.speeches.map (fun s => s.member_id) =
      ["M-0001", "M-0002", "M-0003", "M-0004", "M-0005"] ∧
    lastStanceOf c3Round0.speeches "M-0001" = some Stance.support ∧
    Client.lookup c3Round0.vote.rollCall "M-0001" = none := by
  refine ⟨by decide, by decide, by decide⟩

/-- Claim C3 (amended): in every LLM-enabled executed round of the client
orchestrator, for every agent that produced a Speech, the roll-call entry equals the
Vote implied by the agent's *last* recorded Stance of that round under
support→yes, oppose→no, amend→abstain.  (With fewer than five members a member can
hold several speaker slots with conflicting stances, and without the LLM the roll
call is empty — see the counterexample — so the claim is restricted to the
LLM-enabled client rounds and to each speaker's last stance.) -/
theorem c3_theorem :
    ∀ (w : Client.World) (opts : Client.SimOptions) (res : Client.SimResult),
      opts.useLlm = true →
      Client.runSimulationClient w opts = .ok res →
      ∀ round ∈ res.rounds, ∀ (m : String) (stn : Stance),
        lastStanceOf round.speeches m = some stn →
        Client.lookup round.vote.rollCall m = some (Client.stanceVote stn) := by
  intro w opts res huse h round hmem m stn hlast
  obtain ⟨ns, hloop, _⟩ := Client.runSimulationClient_ok h
  obtain ⟨r', sm', round₀, hrr, hcase⟩ :=
    Client.clientLoop_rounds opts.rounds 0 opts.bill.summary res.rounds ns hloop round hmem
  have hv := (Client.runRound_ok hrr).2.2
  have heq : round.vote = round₀.vote ∧ round.speeches = round₀.speeches := by
    rcases hcase with rfl | ⟨t, rfl⟩ <;> exact ⟨rfl, rfl⟩
  rw [heq.1, hv]
  rw [heq.2] at hlast
  exact Client.roundTally_rollCall w opts res.members r' round₀.speeches m stn huse hlast

/-- Claim C3 (witness): an LLM-enabled one-member run — all five speeches are by
`M-0001` with stance support, and its roll-call entry is `"yes"`. -/
theorem c3_witness :
    Client.lookup c3wRound0.vote.rollCall "M-0001" = some "yes" :=
  c3_theorem c3wWorld c3wOpts c3wRes rfl (by decide) c3wRound0 (by decide)
    "M-0001" Stance.support (by decide)

/-- Claim C8 (counterexample): a rejected amendment-generation call is *not*
recovered: in a two-round LLM run whose first round fails its vote, the thrown
`generateAmendment` call propagates and aborts the whole run, contradicting the
claim that an amendment-generation failure never aborts the overall run (the
source has no try/catch around `generateAmendment`; only empty reply *content*
falls back to the generic string). -/
theorem c8_counterexample :
    Client.runSimulationClient c8World c8Opts = .error "amendment generation failed" := by
  decide

/-- Claim C8 (amended): if the amendment call *resolves* but yields no text (null or
empty content) after a failed non-final round, the orchestrator substitutes the fixed
generic amendment string and the round loop continues; a rejected (thrown) amendment
call, however, propagates and aborts the run — see the counterexample. -/
theorem c8_theorem :
    ∀ (w : Client.World) (opts : Client.SimOptions) (members : List Member)
      (r fuel : Nat) (sm : String) (round : Client.Round) (rest : List Client.Round)
      (ns : List String),
      opts.useLlm = true →
      (w.amendReply r = .ok none ∨ w.amendReply r = .ok (some "")) →
      Client.clientLoop w opts members r (fuel + 2) sm = .ok (round :: rest, ns) →
      round.vote.passed = false →
      round.amendment = some Client.genericAmendment ∧ rest ≠ [] := by
  intro w opts members r fuel sm round rest ns huse hrep hloop hfail
  obtain ⟨round₀, hrr, hc⟩ := Client.clientLoop_succ_inv hloop
  rcases hc with ⟨hp, hrl, _⟩ | ⟨_, hf0, _, _⟩ | ⟨_, _, hcontra, _⟩ |
    ⟨_, _, _, content, rest', notes2, har, hrec, hrl, _⟩
  · injection hrl with h1 h2
    subst h1
    rw [hfail] at hp
    simp at hp
  · exact absurd hf0 (by omega)
  · rw [huse] at hcontra
    cases hcontra
  · have hcontent : Client.amendTextOf content = Client.genericAmendment := by
      rcases hrep with hrep | hrep <;> rw [har] at hrep <;> injection hrep with h3 <;>
        rw [h3] <;> simp [Client.amendTextOf]
    injection hrl with h1 h2
    subst h1
    subst h2
    refine ⟨by rw [← hcontent], ?_⟩
    exact Client.clientLoop_ne_nil (by omega) hrec

/-- Claim C8 (witness): an amendment call that resolves with null content —
the failed first round gets the fixed generic amendment and the loop continues
to a non-empty remainder. -/
theorem c8_witness :
    c8wr0.amendment = some Client.genericAmendment ∧ c8wRest ≠ [] :=
  c8_theorem c8wWorld c8Opts c2Members 0 0 "Bans whale hunting." c8wr0 c8wRest c8wNotes
    rfl (Or.inl rfl) (by decide) (by decide)

/-- Claim C2 (counterexample): in the client orchestrator with the LLM disabled,
both rounds of a two-round run fail and round 1 executes after round 0, yet *no*
amendment is generated or recorded on round 0 (the amendment step is guarded by
`useLlm && loadedEngine`), falsifying "whenever round r fails and is not last, the
orchestrator generates an amendment ... and records it on round r's record".
(The engine variant breaks the claim differently: it stops unconditionally after
round 1.) -/
theorem c2_counterexample :
    (Client.runSimulationClient noLlmWorld c2cOpts).toOption.map
      (fun res => (res.rounds.length, res.rounds.map fun rd => rd.amendment,
                   res.rounds.map fun rd => rd.vote.passed)) =
      some (2, [none, none], [false, false]) := by
  decide

/-- Claim C2 (amended): in the client orchestrator *with the LLM enabled*, whenever
round r's tally is not passed and r is not the last allowed round index (and the
amendment call returns), an amendment is recorded on round r's record, its tagged
text is appended to the bill summary seen by the rest of the loop, and round r+1
executes (the remaining round list is non-empty); in particular, in the concrete
maxRounds=3 scenario where rounds 1 and 2 fail and round 3 passes, the result has
exactly 3 rounds, amendment text on rounds 1 and 2, and `final_passed = true`. -/
theorem c2_theorem :
    (∀ (w : Client.World) (opts : Client.SimOptions) (members : List Member)
       (r fuel : Nat) (sm : String) (round : Client.Round) (rest : List Client.Round)
       (ns : List String),
       opts.useLlm = true →
       Client.clientLoop w opts members r (fuel + 2) sm = .ok (round :: rest, ns) →
       round.vote.passed = false →
       round.amendment = some (round.amendment.getD "") ∧
       Client.clientLoop w opts members (r + 1) (fuel + 1)
         (sm ++ Client.amendMarker (r + 1) (round.amendment.getD "")) =
         .ok (rest, ns.tail) ∧
       rest ≠ []) ∧
    (Client.runSimulationClient c2World c2Opts).toOption.map
      (fun res => (res.rounds.length, res.rounds.map fun rd => rd.amendment,
                   res.final_passed)) =
      some (3, [some "Add oversight.", some "Add oversight.", none], true) := by
  constructor
  · intro w opts members r fuel sm round rest ns huse hloop hfail
    obtain ⟨round₀, hrr, hc⟩ := Client.clientLoop_succ_inv hloop
    rcases hc with ⟨hp, hrl, _⟩ | ⟨_, hf0, _, _⟩ | ⟨_, _, hcontra, _⟩ |
      ⟨_, _, _, content, rest', notes2, har, hrec, hrl, hns⟩
    · injection hrl with h1 h2
      subst h1
      rw [hfail] at hp
      simp at hp
    · exact absurd hf0 (by omega)
    · rw [huse] at hcontra
      cases hcontra
    · injection hrl with h1 h2
      subst h1
      subst h2
      subst hns
      exact ⟨rfl, hrec, Client.clientLoop_ne_nil (by omega) hrec⟩
  · decide

/-- Claim C2 (witness): in the three-round scenario, round 0 fails, carries the
recorded amendment, and the loop continues at round 1 with the tagged amendment text
appended to the summary. -/
theorem c2_witness :
    c2r0.amendment = some (c2r0.amendment.getD "") ∧
    Client.clientLoop c2World c2Opts c2Members 1 2
      ("Bans whale hunting." ++ Client.amendMarker 1 (c2r0.amendment.getD "")) =
      .ok (c2Rest, c2Notes.tail) ∧
    c2Rest ≠ [] :=
  c2_theorem.1 c2World c2Opts c2Members 0 1 "Bans whale hunting." c2r0 c2Rest c2Notes
    rfl (by decide) (by decide)

/-- Claim C9 (confirmed, for runs with at least one configured round): for both
orchestrators, a completed run's round list is non-empty, its length is at most the
configured max rounds, its indices are exactly `0, 1, ..., len-1` (0-based, strictly
increasing, no gaps), and `final_passed` is the last round's `passed` (stated through
the source's `allRounds[allRounds.length - 1]?.vote.passed || false` form, which on a
non-empty list is the last round's `passed`). -/
theorem c9_theorem :
    (∀ (w : Engine.World) (districts : List District) (n rounds : Nat) (bill : Bill)
       (useLlm : Bool) (llmModel : String) (seed : Nat) (res : Engine.SimulationResult),
       1 ≤ rounds →
       Engine.runSimulation w districts n rounds bill useLlm llmModel seed = .ok res →
       res.rounds ≠ [] ∧ res.rounds.length ≤ rounds ∧
       res.rounds.map (fun rd => rd.round_index) = List.range res.rounds.length ∧
       res.final_passed = ((res.rounds.getLast?).map fun rd => rd.vote.passed).getD false) ∧
    (∀ (w : Client.World) (opts : Client.SimOptions) (res : Client.SimResult),
       1 ≤ opts.rounds →
       Client.runSimulationClient w opts = .ok res →
       res.rounds ≠ [] ∧ res.rounds.length ≤ opts.rounds ∧
       res.rounds.map (fun rd => rd.round_index) = List.range res.rounds.length ∧
       res.final_passed = ((res.rounds.getLast?).map fun rd => rd.vote.passed).getD false) := by
  constructor
  · intro w districts n rounds bill useLlm llmModel seed res hr h
    obtain ⟨members, rngEnd, hsm, hlen, hloop, _, hfin⟩ := Engine.runSimulation_ok h
    cases rounds with
    | zero => exact absurd hr (by omega)
    | succ f =>
      obtain ⟨spokes, _, hrl⟩ := Engine.engineLoop_succ_inv hloop
      refine ⟨?_, ?_, ?_, hfin⟩
      · rw [hrl]
        simp
      · rw [hrl]
        simp
      · rw [hrl]
        rfl
  · intro w opts res hr h
    obtain ⟨ns, hloop, hfin⟩ := Client.runSimulationClient_ok h
    have hne := Client.clientLoop_ne_nil (by omega) hloop
    obtain ⟨hlen, hmap⟩ :=
      Client.clientLoop_shape opts.rounds 0 opts.bill.summary res.rounds ns hloop
    refine ⟨hne, hlen, ?_, hfin⟩
    rw [hmap]
    exact (List.range_eq_range' _).symm

/-- Claim C9 (witness): both concrete runs — the engine's one-member three-round run
and the client's one-member one-round run — satisfy all four conclusions. -/
theorem c9_witness :
    (c9EngRes.rounds ≠ [] ∧ c9EngRes.rounds.length ≤ 3 ∧
     c9EngRes.rounds.map (fun rd => rd.round_index) = List.range c9EngRes.rounds.length ∧
     c9EngRes.final_passed =
       ((c9EngRes.rounds.getLast?).map fun rd => rd.vote.passed).getD false) ∧
    (c9CliRes.rounds ≠ [] ∧ c9CliRes.rounds.length ≤ c1Opts.rounds ∧
     c9CliRes.rounds.map (fun rd => rd.round_index) = List.range c9CliRes.rounds.length ∧
     c9CliRes.final_passed =
       ((c9CliRes.rounds.getLast?).map fun rd => rd.vote.passed).getD false) :=
  ⟨c9_theorem.1 engWorld [mockDistrict] 1 3 mockBill false "llama3" 42 c9EngRes
      (by omega) (by decide),
   c9_theorem.2 noLlmWorld c1Opts c9CliRes (by decide) (by decide)⟩

/-- Claim C10 (confirmed): in the client orchestrator with `useLlm = false`, every
executed round's tally is exactly the dummy
`{yes: ⌊n/2⌋, no: ⌊n/2⌋, abstain: 0, passed: false, threshold: 0.5, rollCall: {}}`,
so no round ever passes, the loop runs all configured rounds, and `final_passed` is
`false` — under the heuristic fallback the bill can never pass. -/
theorem c10_theorem :
    ∀ (w : Client.World) (opts : Client.SimOptions) (res : Client.SimResult),
      opts.useLlm = false →
      Client.runSimulationClient w opts = .ok res →
      (∀ round ∈ res.rounds,
        round.vote = { yes := ((opts.numMembers / 2 : Nat) : Int)
                       no := ((opts.numMembers / 2 : Nat) : Int)
                       abstain := 0, passed := false, threshold := 1/2
                       rollCall := [] }) ∧
      res.rounds.length = opts.rounds ∧
      res.final_passed = false := by
  intro w opts res huse h
  obtain ⟨ns, hloop, hfin⟩ := Client.runSimulationClient_ok h
  obtain ⟨hlen, hall⟩ :=
    Client.clientLoop_noLlm huse opts.rounds 0 opts.bill.summary res.rounds ns hloop
  refine ⟨hall, hlen, ?_⟩
  cases hgl : res.rounds.getLast? with
  | none => rw [hfin, hgl]; rfl
  | some last =>
    have hl := hall last (mem_of_getLast?_eq hgl)
    rw [hfin, hgl]
    simp [hl]

/-- Claim C10 (witness): the concrete three-member two-round LLM-free run — both
rounds carry the dummy 1/1/0 tally, the loop runs both rounds, and the bill fails. -/
theorem c10_witness :
    c10Round0.vote = { yes := ((c10Opts.numMembers / 2 : Nat) : Int)
                       no := ((c10Opts.numMembers / 2 : Nat) : Int)
                       abstain := 0, passed := false, threshold := 1/2
                       rollCall := [] } ∧
    c10Res.rounds.length = c10Opts.rounds ∧
    c10Res.final_passed = false :=
  ⟨(c10_theorem noLlmWorld c10Opts c10Res rfl (by decide)).1 c10Round0 (by decide),
   (c10_theorem noLlmWorld c10Opts c10Res rfl (by decide)).2.1,
   (c10_theorem noLlmWorld c10Opts c10Res rfl (by decide)).2.2⟩
